import Mathlib

/-!
Shallow embedding of the hpm-riscv-rt boot and trap-dispatch runtime
(`src/lib.rs`, `src/trap.rs`, `src/asm.rs`) and proofs about its
specification claims.

Hardware side effects (register writes, handler invocations, memory
accesses) are modelled as explicit traces; build-time `cfg` features are
modelled as boolean parameters.
-/

namespace HpmRiscvRt

/-! ## Trap dispatch (`src/trap.rs`) -/

/-- The caller-saved registers pushed by the `CORE_LOCAL` assembly stub
(struct `TrapFrame` in `src/lib.rs`). -/
structure TrapFrame where
  ra : Nat
  t0 : Nat
  t1 : Nat
  t2 : Nat
  t3 : Nat
  t4 : Nat
  t5 : Nat
  t6 : Nat
  a0 : Nat
  a1 : Nat
  a2 : Nat
  a3 : Nat
  a4 : Nat
  a5 : Nat
  a6 : Nat
  a7 : Nat
  deriving DecidableEq

/-- Names of the per-exception-code handler symbols declared `extern "C"`
in `src/trap.rs`. -/
inductive ExcH where
  | instructionMisaligned
  | instructionFault
  | illegalInstruction
  | breakpoint
  | loadMisaligned
  | loadFault
  | storeMisaligned
  | storeFault
  | userEnvCall
  | supervisorEnvCall
  | machineEnvCall
  | instructionPageFault
  | loadPageFault
  | storePageFault
  deriving DecidableEq, Fintype

/-- Names of the per-core-interrupt handler symbols declared `extern "C"`
in `src/trap.rs`. -/
inductive IntH where
  | supervisorSoft
  | machineSoft
  | supervisorTimer
  | machineTimer
  | supervisorExternal
  | machineExternal
  deriving DecidableEq, Fintype

/-- `__HPM_EXCEPTIONS`: the exception dispatch table (16 entries,
`None` for the architecturally reserved codes 10 and 14). -/
def __HPM_EXCEPTIONS : List (Option ExcH) :=
  [some .instructionMisaligned, -- 0
   some .instructionFault,      -- 1
   some .illegalInstruction,    -- 2
   some .breakpoint,            -- 3
   some .loadMisaligned,        -- 4
   some .loadFault,             -- 5
   some .storeMisaligned,       -- 6
   some .storeFault,            -- 7
   some .userEnvCall,           -- 8
   some .supervisorEnvCall,     -- 9
   none,                        -- 10 (reserved)
   some .machineEnvCall,        -- 11
   some .instructionPageFault,  -- 12
   some .loadPageFault,         -- 13
   none,                        -- 14 (reserved)
   some .storePageFault]        -- 15

/-- `__HPM_CORE_INTERRUPTS`: the core interrupt dispatch table (14 entries). -/
def __HPM_CORE_INTERRUPTS : List (Option IntH) :=
  [none,                     -- 0 (reserved)
   some .supervisorSoft,     -- 1
   none,                     -- 2 (reserved)
   some .machineSoft,        -- 3 - PLICSW
   none,                     -- 4 (reserved)
   some .supervisorTimer,    -- 5
   none,                     -- 6 (reserved)
   some .machineTimer,       -- 7 - MCHTMR
   none,                     -- 8 (reserved)
   some .supervisorExternal, -- 9
   none,                     -- 10 (reserved)
   some .machineExternal,    -- 11
   none,                     -- 12 (Coprocessor, reserved)
   none]                     -- 13 (Host, reserved)

/-- Observable calls made by the `_start_rust_CORE_LOCAL` dispatcher. -/
inductive TrapEvent where
  | excHandler (h : ExcH) (tf : TrapFrame)
  | exceptionHook (tf : TrapFrame)
  | intHandler (h : IntH)
  | defaultHandler
  deriving DecidableEq

/-- `_start_rust_CORE_LOCAL`: the Rust `CORE_LOCAL` trap dispatcher.
`hpm67fix` models the `hpm67-fix` cfg feature; `isException` is
`mcause.is_exception()`, `code` is `mcause.code()`, `mtval` is the value
`riscv::register::mtval::read()` would return.  The result is the ordered
trace of handler invocations. -/
def _start_rust_CORE_LOCAL (hpm67fix : Bool) (isException : Bool)
    (code mtval : Nat) (tf : TrapFrame) : List TrapEvent :=
  if isException then
    -- HPM6700 Errata: ignore illegal instruction exception with mtval=0
    if hpm67fix = true ∧ code = 2 ∧ mtval = 0 then
      []
    else
      (match __HPM_EXCEPTIONS[code]? with
       | some (some h) => [TrapEvent.excHandler h tf]
       | _ => []) ++ [TrapEvent.exceptionHook tf]
  else
    match __HPM_CORE_INTERRUPTS[code]? with
    | some (some h) => [TrapEvent.intHandler h]
    | _ => [TrapEvent.defaultHandler]

end HpmRiscvRt

namespace HpmRiscvRt

/-- An all-zero trap frame, used for concrete instantiations. -/
def tfZero : TrapFrame := ⟨0, 0, 0, 0, 0, 0, 0, 0, 0, 0, 0, 0, 0, 0, 0, 0⟩

/-- C1: total dispatch behaviour of `_start_rust_CORE_LOCAL`.  For an
exception not suppressed by the errata path, a present table entry is
invoked with the trap frame and the universal `ExceptionHandler` hook is
invoked afterwards; an absent or out-of-range code invokes only the hook.
For an interrupt, a present entry of the core interrupt table is invoked
(niladic), and an absent or out-of-range code invokes `DefaultHandler`. -/
theorem c1_dispatch_total :
    (∀ (fix : Bool) (code mtval : Nat) (tf : TrapFrame) (h : ExcH),
       ¬(fix = true ∧ code = 2 ∧ mtval = 0) →
       __HPM_EXCEPTIONS[code]? = some (some h) →
       _start_rust_CORE_LOCAL fix true code mtval tf =
         [TrapEvent.excHandler h tf, TrapEvent.exceptionHook tf]) ∧
    (∀ (fix : Bool) (code mtval : Nat) (tf : TrapFrame),
       ¬(fix = true ∧ code = 2 ∧ mtval = 0) →
       (∀ h : ExcH, __HPM_EXCEPTIONS[code]? ≠ some (some h)) →
       _start_rust_CORE_LOCAL fix true code mtval tf =
         [TrapEvent.exceptionHook tf]) ∧
    (∀ (fix : Bool) (code mtval : Nat) (tf : TrapFrame) (h : IntH),
       __HPM_CORE_INTERRUPTS[code]? = some (some h) →
       _start_rust_CORE_LOCAL fix false code mtval tf = [TrapEvent.intHandler h]) ∧
    (∀ (fix : Bool) (code mtval : Nat) (tf : TrapFrame),
       (∀ h : IntH, __HPM_CORE_INTERRUPTS[code]? ≠ some (some h)) →
       _start_rust_CORE_LOCAL fix false code mtval tf = [TrapEvent.defaultHandler]) := by
  refine ⟨?_, ?_, ?_, ?_⟩
  · intro fix code mtval tf h hns htab
    simp [_start_rust_CORE_LOCAL, hns, htab]
  · intro fix code mtval tf hns habs
    simp only [_start_rust_CORE_LOCAL, if_pos rfl, if_neg hns]
    cases htab : __HPM_EXCEPTIONS[code]? with
    | none => simp
    | some o =>
      cases o with
      | none => simp
      | some h => exact absurd htab (habs h)
  · intro fix code mtval tf h htab
    simp [_start_rust_CORE_LOCAL, htab]
  · intro fix code mtval tf habs
    simp only [_start_rust_CORE_LOCAL, if_neg (by simp : ¬False)]
    cases htab : __HPM_CORE_INTERRUPTS[code]? with
    | none => simp
    | some o =>
      cases o with
      | none => simp
      | some h => exact absurd htab (habs h)

/-- Witness for `c1_dispatch_total` at concrete inputs: exception code 3
(present), exception code 10 (absent), interrupt code 7 (present),
interrupt code 0 (absent). -/
theorem c1_dispatch_total_witness :
    _start_rust_CORE_LOCAL false true 3 0 tfZero =
      [TrapEvent.excHandler .breakpoint tfZero, TrapEvent.exceptionHook tfZero] ∧
    _start_rust_CORE_LOCAL false true 10 0 tfZero = [TrapEvent.exceptionHook tfZero] ∧
    _start_rust_CORE_LOCAL false false 7 0 tfZero = [TrapEvent.intHandler .machineTimer] ∧
    _start_rust_CORE_LOCAL false false 0 0 tfZero = [TrapEvent.defaultHandler] :=
  ⟨c1_dispatch_total.1 false 3 0 tfZero .breakpoint (by simp) (by decide),
   c1_dispatch_total.2.1 false 10 0 tfZero (by simp) (by decide),
   c1_dispatch_total.2.2.1 false 7 0 tfZero .machineTimer (by decide),
   c1_dispatch_total.2.2.2 false 0 0 tfZero (by decide)⟩

/-- C4: with the `hpm67-fix` feature, an exception with code 2 and
`mtval = 0` produces an empty trace (no per-code handler, no universal
hook); for any other exception the dispatcher behaves exactly as without
the fix. -/
theorem c4_errata_suppression :
    (∀ (mtval : Nat) (tf : TrapFrame), mtval = 0 →
       _start_rust_CORE_LOCAL true true 2 mtval tf = []) ∧
    (∀ (code mtval : Nat) (tf : TrapFrame), ¬(code = 2 ∧ mtval = 0) →
       _start_rust_CORE_LOCAL true true code mtval tf =
         _start_rust_CORE_LOCAL false true code mtval tf) := by
  constructor
  · intro mtval tf h
    simp [_start_rust_CORE_LOCAL, h]
  · intro code mtval tf h
    simp [_start_rust_CORE_LOCAL, h]

/-- Witness for `c4_errata_suppression`: suppression at (code 2, mtval 0),
no suppression at (code 2, mtval 5). -/
theorem c4_errata_suppression_witness :
    _start_rust_CORE_LOCAL true true 2 0 tfZero = [] ∧
    _start_rust_CORE_LOCAL true true 2 5 tfZero =
      _start_rust_CORE_LOCAL false true 2 5 tfZero :=
  ⟨c4_errata_suppression.1 0 tfZero rfl,
   c4_errata_suppression.2 2 5 tfZero (by simp)⟩

/-! ## Boot sequence (`src/asm.rs` `_hpm_start`, `src/lib.rs` `_hpm_start_rust`)

The boot sequence is straight-line code whose observable behaviour is the
order of its side-effecting steps; we model it as the list of those steps.
The two cargo features `hpm67-fix` and `pma-noncacheable` select which PMA
configuration function runs. -/

/-- One observable step of the boot sequence. -/
inductive BootStep where
  | preInitHook       -- `call __pre_init`
  | initData          -- copy `.data` from load address
  | initBss           -- zero `.bss`
  | initFast          -- copy `.fast` (ILM)
  | initFastData      -- copy `.fast.data` (DLM)
  | initFastBss       -- zero `.fast.bss`
  | enableFpu         -- `mstatus::set_fs(Initial)`
  | icEnable          -- `l1c::ic_enable()`
  | dcEnable          -- `l1c::dc_enable()`
  | dcInvalidateAll   -- `l1c::dc_invalidate_all()`
  | configPmaHpm67    -- `configure_pma_hpm67()`
  | configRtt         -- `configure_rtt_noncacheable()`
  | configNc          -- `configure_noncacheable_pma()`
  | initNcData        -- copy `.noncacheable.data`
  | initNcBss         -- zero `.noncacheable.bss`
  | setupInterruptsCall -- `_setup_interrupts()`
  | callMain          -- `main()`
  deriving DecidableEq

/-- The two build features relevant to the boot path. -/
structure Features where
  hpm67fix : Bool
  pmaNoncacheable : Bool
  deriving DecidableEq

/-- `_hpm_start_rust`: the Rust startup function (its trace of steps). -/
def _hpm_start_rust_trace (f : Features) : List BootStep :=
  [BootStep.enableFpu, BootStep.icEnable, BootStep.dcEnable, BootStep.dcInvalidateAll] ++
  (if f.hpm67fix = true ∧ f.pmaNoncacheable = true then [BootStep.configPmaHpm67] else []) ++
  (if f.hpm67fix = true ∧ ¬f.pmaNoncacheable = true then [BootStep.configRtt] else []) ++
  (if f.pmaNoncacheable = true ∧ ¬f.hpm67fix = true then [BootStep.configNc] else []) ++
  [BootStep.initNcData, BootStep.initNcBss, BootStep.setupInterruptsCall, BootStep.callMain]

/-- `_hpm_start`: the assembly entry point (its trace of steps), which runs
the pre-init hook and the five section-initialization loops before calling
`_hpm_start_rust`. -/
def _hpm_start_trace (f : Features) : List BootStep :=
  [BootStep.preInitHook, BootStep.initData, BootStep.initBss, BootStep.initFast,
   BootStep.initFastData, BootStep.initFastBss] ++ _hpm_start_rust_trace f

/-- `a` occurs strictly before `b` in `l` (both present). -/
def stepBefore (a b : BootStep) (l : List BootStep) : Prop :=
  a ∈ l ∧ b ∈ l ∧ l.indexOf a < l.indexOf b

instance (a b : BootStep) (l : List BootStep) : Decidable (stepBefore a b l) := by
  unfold stepBefore; infer_instance

/-- The boot steps that are a region copy-in or zero-fill. -/
def regionSteps : List BootStep :=
  [BootStep.initData, BootStep.initBss, BootStep.initFast, BootStep.initFastData,
   BootStep.initFastBss, BootStep.initNcData, BootStep.initNcBss]

/-- The boot steps belonging to the Cache & Memory-Attribute Configurator. -/
def configuratorSteps : List BootStep :=
  [BootStep.icEnable, BootStep.dcEnable, BootStep.dcInvalidateAll,
   BootStep.configPmaHpm67, BootStep.configRtt, BootStep.configNc]

/-- C2 counterexample: it is not the case that every statically declared
region's copy-in or zero-fill completes before the Configurator runs — in
every configuration the `.noncacheable.data`/`.noncacheable.bss`
initialization happens after cache enabling and PMA programming.  In
particular, with both features enabled, `configure_pma_hpm67` (index 10 of
the trace) precedes the non-cacheable data copy (index 11). -/
theorem c2_counterexample :
    ¬(∀ (fix nc : Bool) (r c : BootStep), r ∈ regionSteps → c ∈ configuratorSteps →
        r ∈ _hpm_start_trace ⟨fix, nc⟩ → c ∈ _hpm_start_trace ⟨fix, nc⟩ →
        stepBefore r c (_hpm_start_trace ⟨fix, nc⟩)) ∧
    (_hpm_start_trace ⟨true, true⟩).indexOf BootStep.configPmaHpm67 = 10 ∧
    (_hpm_start_trace ⟨true, true⟩).indexOf BootStep.initNcData = 11 := by
  refine ⟨fun h => ?_, by decide, by decide⟩
  have := h true true BootStep.initNcData BootStep.configPmaHpm67
    (by decide) (by decide) (by decide) (by decide)
  revert this
  decide

/-- C2 amended: the `.data`, `.bss`, `.fast`, `.fast.data` and `.fast.bss`
regions complete before the Configurator; the non-cacheable data/bss
regions are initialized after the Configurator but before the Interrupt
Controller Initializer; the Configurator precedes the Interrupt Controller
Initializer, which precedes the transfer to the application entry point. -/
theorem c2_boot_order :
    ∀ fix nc : Bool,
      (∀ r ∈ [BootStep.initData, BootStep.initBss, BootStep.initFast,
              BootStep.initFastData, BootStep.initFastBss],
        ∀ c ∈ configuratorSteps, c ∈ _hpm_start_trace ⟨fix, nc⟩ →
          stepBefore r c (_hpm_start_trace ⟨fix, nc⟩)) ∧
      (∀ c ∈ configuratorSteps, c ∈ _hpm_start_trace ⟨fix, nc⟩ →
        ∀ r ∈ [BootStep.initNcData, BootStep.initNcBss],
          stepBefore c r (_hpm_start_trace ⟨fix, nc⟩)) ∧
      (∀ r ∈ [BootStep.initNcData, BootStep.initNcBss],
        stepBefore r BootStep.setupInterruptsCall (_hpm_start_trace ⟨fix, nc⟩)) ∧
      (∀ c ∈ configuratorSteps, c ∈ _hpm_start_trace ⟨fix, nc⟩ →
        stepBefore c BootStep.setupInterruptsCall (_hpm_start_trace ⟨fix, nc⟩)) ∧
      stepBefore BootStep.setupInterruptsCall BootStep.callMain
        (_hpm_start_trace ⟨fix, nc⟩) := by
  decide

/-- Witness for `c2_boot_order` at the concrete configuration with both
features enabled. -/
theorem c2_boot_order_witness :
    stepBefore BootStep.initData BootStep.icEnable (_hpm_start_trace ⟨true, true⟩) ∧
    stepBefore BootStep.configPmaHpm67 BootStep.initNcData (_hpm_start_trace ⟨true, true⟩) ∧
    stepBefore BootStep.setupInterruptsCall BootStep.callMain (_hpm_start_trace ⟨true, true⟩) :=
  ⟨(c2_boot_order true true).1 BootStep.initData (by decide) BootStep.icEnable
     (by decide) (by decide),
   (c2_boot_order true true).2.1 BootStep.configPmaHpm67 (by decide) (by decide)
     BootStep.initNcData (by decide),
   (c2_boot_order true true).2.2.2.2⟩

/-- C9 counterexample: with both features disabled, the non-cacheable data
and bss regions are still initialized by the boot sequence —
`init_noncacheable_sections` is invoked unconditionally in
`_hpm_start_rust`, not configuration-gated. -/
theorem c9_counterexample :
    BootStep.initNcData ∈ _hpm_start_trace ⟨false, false⟩ ∧
    BootStep.initNcBss ∈ _hpm_start_trace ⟨false, false⟩ := by
  decide

/-- C9 amended: the copy-in/zero-fill primitive is applied to the
non-cacheable data and bss regions in every build configuration
(unconditionally); only the PMA attribute programming for those regions is
configuration-gated. -/
theorem c9_noncacheable_init_unconditional :
    ∀ fix nc : Bool,
      BootStep.initNcData ∈ _hpm_start_trace ⟨fix, nc⟩ ∧
      BootStep.initNcBss ∈ _hpm_start_trace ⟨fix, nc⟩ ∧
      ((BootStep.configPmaHpm67 ∈ _hpm_start_trace ⟨fix, nc⟩ ∨
        BootStep.configRtt ∈ _hpm_start_trace ⟨fix, nc⟩ ∨
        BootStep.configNc ∈ _hpm_start_trace ⟨fix, nc⟩) ↔
        (fix = true ∨ nc = true)) := by
  decide

/-! ## Region Descriptor & Copier (`init_noncacheable_sections` loops and
the section-initialization loops of `_hpm_start`)

Memory is modelled word-addressed (`Nat → Nat`): the loops advance their
`u32` pointers by one word per iteration, so a word index is the faithful
unit.  Each loop also returns the ordered trace of its volatile accesses. -/

/-- One volatile memory access. -/
inductive MemAccess where
  | readW (a : Nat)
  | writeW (a : Nat) (v : Nat)
  deriving DecidableEq

/-- Pointwise store into word-addressed memory. -/
def wstore (m : Nat → Nat) (a v : Nat) : Nat → Nat :=
  fun x => if x = a then v else m x

/-- The copy loop `while dst < end { dst.write_volatile(src.read_volatile());
src = src.add(1); dst = dst.add(1) }`, running for `n = end - dst` words. -/
def copyLoop (m : Nat → Nat) (s d : Nat) : Nat → ((Nat → Nat) × List MemAccess)
  | 0 => (m, [])
  | n + 1 =>
      let v := m s
      let r := copyLoop (wstore m d v) (s + 1) (d + 1) n
      (r.1, MemAccess.readW s :: MemAccess.writeW d v :: r.2)

/-- The zero loop `while dst < end { dst.write_volatile(0); dst = dst.add(1) }`,
running for `n = end - dst` words. -/
def zeroLoop (m : Nat → Nat) (d : Nat) : Nat → ((Nat → Nat) × List MemAccess)
  | 0 => (m, [])
  | n + 1 =>
      let r := zeroLoop (wstore m d 0) (d + 1) n
      (r.1, MemAccess.writeW d 0 :: r.2)

/-- A region descriptor: destination start/end (word indices, exclusive
end) and an optional source start (absent for zero-fill regions). -/
structure Region where
  dstStart : Nat
  dstEnd : Nat
  src : Option Nat
  deriving DecidableEq

/-- `initRegion(region)`: copy-in when a source is present, zero-fill
otherwise; returns the final memory and the access trace. -/
def initRegion (m : Nat → Nat) (r : Region) : (Nat → Nat) × List MemAccess :=
  match r.src with
  | some s => copyLoop m s r.dstStart (r.dstEnd - r.dstStart)
  | none => zeroLoop m r.dstStart (r.dstEnd - r.dstStart)

/-- The copy loop leaves every word outside `[d, d + n)` unchanged. -/
theorem copyLoop_outside (n : Nat) : ∀ (m : Nat → Nat) (s d a : Nat),
    (a < d ∨ d + n ≤ a) → (copyLoop m s d n).1 a = m a := by
  induction n with
  | zero => intro m s d a _; rfl
  | succ k ih =>
      intro m s d a ha
      show (copyLoop (wstore m d (m s)) (s + 1) (d + 1) k).1 a = m a
      rw [ih (wstore m d (m s)) (s + 1) (d + 1) a (by omega)]
      unfold wstore
      rw [if_neg (by omega)]

/-- The zero loop leaves every word outside `[d, d + n)` unchanged. -/
theorem zeroLoop_outside (n : Nat) : ∀ (m : Nat → Nat) (d a : Nat),
    (a < d ∨ d + n ≤ a) → (zeroLoop m d n).1 a = m a := by
  induction n with
  | zero => intro m d a _; rfl
  | succ k ih =>
      intro m d a ha
      show (zeroLoop (wstore m d 0) (d + 1) k).1 a = m a
      rw [ih (wstore m d 0) (d + 1) a (by omega)]
      unfold wstore
      rw [if_neg (by omega)]

/-- Copy fidelity of the raw loop, assuming the source and destination
word ranges do not overlap. -/
theorem copyLoop_fidelity (n : Nat) : ∀ (m : Nat → Nat) (s d : Nat),
    (∀ i j, i < n → j < n → s + i ≠ d + j) →
    ∀ i, i < n → (copyLoop m s d n).1 (d + i) = m (s + i) := by
  induction n with
  | zero => intro m s d _ i hi; omega
  | succ k ih =>
      intro m s d hdisj i hi
      show (copyLoop (wstore m d (m s)) (s + 1) (d + 1) k).1 (d + i) = m (s + i)
      match i with
      | 0 =>
          rw [copyLoop_outside k (wstore m d (m s)) (s + 1) (d + 1) (d + 0) (by omega)]
          unfold wstore
          simp
      | j + 1 =>
          have hd : d + (j + 1) = (d + 1) + j := by omega
          rw [hd, ih (wstore m d (m s)) (s + 1) (d + 1)
            (fun a b ha hb => by
              have := hdisj (a + 1) (b + 1) (by omega) (by omega)
              omega)
            j (by omega)]
          unfold wstore
          rw [if_neg (by
            have := hdisj (j + 1) 0 (by omega) (by omega)
            omega)]
          congr 1
          omega

/-- Zero-fill correctness of the raw loop. -/
theorem zeroLoop_zeroes (n : Nat) : ∀ (m : Nat → Nat) (d : Nat),
    ∀ i, i < n → (zeroLoop m d n).1 (d + i) = 0 := by
  induction n with
  | zero => intro m d i hi; omega
  | succ k ih =>
      intro m d i hi
      show (zeroLoop (wstore m d 0) (d + 1) k).1 (d + i) = 0
      match i with
      | 0 =>
          rw [zeroLoop_outside k (wstore m d 0) (d + 1) (d + 0) (by omega)]
          unfold wstore
          simp
      | j + 1 =>
          have hd : d + (j + 1) = (d + 1) + j := by omega
          rw [hd]
          exact ih (wstore m d 0) (d + 1) j (by omega)

/-- Concrete memory for the C5 counterexample: word 0 holds 10, word 1
holds 20, the rest hold 0. -/
def cexMem : Nat → Nat :=
  fun x => if x = 0 then 10 else if x = 1 then 20 else 0

/-- C5 counterexample: copy fidelity ("destination equals the source range
read at call time") fails when the source range overlaps the destination
range.  With memory (10, 20, 0, …), copying 2 words from source 0 to
destination 1 yields word 2 = 10, but the source word 1 read at call time
was 20: the loop reads the word it overwrote in its first iteration. -/
theorem c5_counterexample :
    ¬(∀ (m : Nat → Nat) (r : Region) (s : Nat), r.src = some s →
        r.dstStart < r.dstEnd →
        ∀ i, i < r.dstEnd - r.dstStart →
          (initRegion m r).1 (r.dstStart + i) = m (s + i)) ∧
    (initRegion cexMem ⟨1, 3, some 0⟩).1 2 = 10 ∧ cexMem 1 = 20 := by
  refine ⟨fun h => ?_, rfl, rfl⟩
  have h2 := h cexMem ⟨1, 3, some 0⟩ 0 rfl (show (1 : Nat) < 3 by omega)
    1 (show (1 : Nat) < 3 - 1 by omega)
  have h3 : (initRegion cexMem ⟨1, 3, some 0⟩).1 (1 + 1) = 10 := rfl
  have h4 : cexMem (0 + 1) = 20 := rfl
  rw [h3, h4] at h2
  exact absurd h2 (by omega)

/-- C5 amended: for every region with dest-start < dest-end, a defined
source, and source range disjoint from the destination range, after
`initRegion` the destination word range equals the source word range read
at call time; for every zero-fill region every word of the destination
range reads as zero afterwards; and `initRegion` on an empty region
performs zero memory accesses, leaves memory unchanged, and is idempotent
under repeated calls. -/
theorem c5_region_init :
    (∀ (m : Nat → Nat) (r : Region) (s : Nat), r.src = some s →
       r.dstStart < r.dstEnd →
       (∀ i j, i < r.dstEnd - r.dstStart → j < r.dstEnd - r.dstStart →
         s + i ≠ r.dstStart + j) →
       ∀ i, i < r.dstEnd - r.dstStart →
         (initRegion m r).1 (r.dstStart + i) = m (s + i)) ∧
    (∀ (m : Nat → Nat) (r : Region), r.src = none →
       ∀ i, i < r.dstEnd - r.dstStart →
         (initRegion m r).1 (r.dstStart + i) = 0) ∧
    (∀ (m : Nat → Nat) (r : Region), r.dstStart = r.dstEnd →
       (initRegion m r).2 = [] ∧ (initRegion m r).1 = m ∧
       initRegion ((initRegion m r).1) r = initRegion m r) := by
  refine ⟨?_, ?_, ?_⟩
  · intro m r s hs _ hdisj i hi
    unfold initRegion
    rw [hs]
    exact copyLoop_fidelity _ m s r.dstStart hdisj i hi
  · intro m r hs i hi
    unfold initRegion
    rw [hs]
    exact zeroLoop_zeroes _ m r.dstStart i hi
  · intro m r he
    have hn : r.dstEnd - r.dstStart = 0 := by omega
    cases hsrc : r.src with
    | none => simp [initRegion, hsrc, hn, zeroLoop]
    | some s => simp [initRegion, hsrc, hn, copyLoop]

/-- Witness for `c5_region_init` at concrete inputs: a disjoint 2-word
copy, a 2-word zero-fill, and an empty region. -/
theorem c5_region_init_witness :
    (initRegion (fun x => x + 100) ⟨10, 12, some 0⟩).1 (10 + 0) = (fun x => x + 100) (0 + 0) ∧
    (initRegion (fun x => x + 100) ⟨10, 12, none⟩).1 (10 + 1) = 0 ∧
    (initRegion (fun x => x + 100) ⟨5, 5, none⟩).2 = [] :=
  ⟨c5_region_init.1 (fun x => x + 100) ⟨10, 12, some 0⟩ 0 rfl
     (show (10 : Nat) < 12 by omega)
     (fun i j hi hj => by
       have hi2 : i < 2 := hi
       have hj2 : j < 2 := hj
       show 0 + i ≠ 10 + j
       omega)
     0 (show (0 : Nat) < 12 - 10 by omega),
   c5_region_init.2.1 (fun x => x + 100) ⟨10, 12, none⟩ rfl 1
     (show (1 : Nat) < 12 - 10 by omega),
   (c5_region_init.2.2 (fun x => x + 100) ⟨5, 5, none⟩ rfl).1⟩

/-! ## PMA configuration (`configure_pma_hpm67`, `configure_rtt_noncacheable`,
`configure_noncacheable_pma` in `src/lib.rs`)

Register writes are modelled as an ordered trace.  All address values are
`u32` in the source; arithmetic uses explicit wrapping mod `2^32`. -/

/-- One register write performed by a PMA configuration routine. -/
inductive PmaWrite where
  | pmaaddr0 (v : Nat)
  | pmaaddr1 (v : Nat)
  | pmacfg0 (v : Nat)    -- `csrw 0xBC0`
  | fenceI
  deriving DecidableEq

/-- `ENTRY_NAPOT_NC_BUF = 0x0F`: ETYP=NAPOT(3), MTYP=NC_BUF(3), AMO=0. -/
def ENTRY_NAPOT_NC_BUF : Nat := 0x0F

/-- `ENTRY_NAPOT_NC_BUF_AMO = 0x2F`: ETYP=NAPOT(3), MTYP=NC_BUF(3), AMO=1. -/
def ENTRY_NAPOT_NC_BUF_AMO : Nat := 0x2F

/-- The NAPOT address computation `(base + (size >> 1) - 1) >> 2` in
wrapping `u32` arithmetic. -/
def napotAddr (base size : Nat) : Nat :=
  ((base + size / 2 + (2 ^ 32 - 1)) % 2 ^ 32) / 4

/-- `configure_rtt_noncacheable` (features `hpm67-fix` without
`pma-noncacheable`): `rttAddr` is the address of the weak `_SEGGER_RTT`
symbol (0 when not linked). -/
def configure_rtt_noncacheable (rttAddr : Nat) : List PmaWrite :=
  if rttAddr = 0 then
    []
  else
    [PmaWrite.pmaaddr0 (napotAddr (rttAddr &&& 0xFFFFF000) 0x1000),
     PmaWrite.pmacfg0 ENTRY_NAPOT_NC_BUF,
     PmaWrite.fenceI]

/-- `configure_noncacheable_pma` (feature `pma-noncacheable` without
`hpm67-fix`): `ncStart`/`ncEnd` are the linker symbols
`__noncacheable_start__`/`__noncacheable_end__`.  The release-build
behaviour is modelled; the `debug_assert!` alignment checks are
debug-only. -/
def configure_noncacheable_pma (ncStart ncEnd : Nat) : List PmaWrite :=
  if ncEnd ≤ ncStart then
    []
  else
    [PmaWrite.pmaaddr1 (napotAddr ncStart (ncEnd - ncStart)),
     PmaWrite.pmacfg0 (ENTRY_NAPOT_NC_BUF_AMO <<< 8),
     PmaWrite.fenceI]

/-- `configure_pma_hpm67` (both features): programs entry 0 (RTT, 4KB) and
entry 1 (non-cacheable region) and always issues a single composite
`pmacfg0` CSR write. -/
def configure_pma_hpm67 (rttAddr ncStart ncEnd : Nat) : List PmaWrite :=
  (if rttAddr ≠ 0 then
     [PmaWrite.pmaaddr0 (napotAddr (rttAddr &&& 0xFFFFF000) 0x1000)]
   else []) ++
  (if ncStart < ncEnd then
     [PmaWrite.pmaaddr1 (napotAddr ncStart (ncEnd - ncStart))]
   else []) ++
  [PmaWrite.pmacfg0
     ((if rttAddr ≠ 0 then ENTRY_NAPOT_NC_BUF else 0) |||
      (if ncStart < ncEnd then ENTRY_NAPOT_NC_BUF_AMO <<< 8 else 0)),
   PmaWrite.fenceI]

/-- The values written to `pmaaddr0` in a trace. -/
def pmaaddr0Writes (l : List PmaWrite) : List Nat :=
  l.filterMap fun w => match w with | PmaWrite.pmaaddr0 v => some v | _ => none

/-- The values written to `pmaaddr1` in a trace. -/
def pmaaddr1Writes (l : List PmaWrite) : List Nat :=
  l.filterMap fun w => match w with | PmaWrite.pmaaddr1 v => some v | _ => none

/-- The values written to `pmacfg0` in a trace. -/
def pmacfg0Writes (l : List PmaWrite) : List Nat :=
  l.filterMap fun w => match w with | PmaWrite.pmacfg0 v => some v | _ => none

/-- The wrapping `- 1` is exact when `1 ≤ x ≤ 2^32`. -/
theorem napotAddr_eq (base size : Nat) (h1 : 1 ≤ base + size / 2)
    (h2 : base + size / 2 ≤ 2 ^ 32) :
    napotAddr base size = (base + size / 2 - 1) / 4 := by
  unfold napotAddr
  have hx : base + size / 2 + (2 ^ 32 - 1) = (base + size / 2 - 1) + 2 ^ 32 := by
    omega
  rw [hx, Nat.add_mod_right, Nat.mod_eq_of_lt (by omega)]

/-- C3: every programmed PMA address-register value equals
`(base + length/2 − 1) >> 2`, and an empty non-cacheable range
(`end ≤ start`) programs nothing.  Bounds hypotheses reflect the `u32`
domain of the source (addresses below `2^32`, non-degenerate base). -/
theorem c3_napot_encoding :
    (∀ s e, s < e → e ≤ 2 ^ 32 → 1 ≤ s + (e - s) / 2 →
       pmaaddr1Writes (configure_noncacheable_pma s e) =
         [(s + (e - s) / 2 - 1) / 4] ∧
       ∀ r, pmaaddr1Writes (configure_pma_hpm67 r s e) =
         [(s + (e - s) / 2 - 1) / 4]) ∧
    (∀ s e, e ≤ s →
       configure_noncacheable_pma s e = [] ∧
       ∀ r, pmaaddr1Writes (configure_pma_hpm67 r s e) = []) ∧
    (∀ r, r ≠ 0 →
       pmaaddr0Writes (configure_rtt_noncacheable r) =
         [((r &&& 0xFFFFF000) + 0x1000 / 2 - 1) / 4] ∧
       ∀ s e, pmaaddr0Writes (configure_pma_hpm67 r s e) =
         [((r &&& 0xFFFFF000) + 0x1000 / 2 - 1) / 4]) ∧
    configure_rtt_noncacheable 0 = [] := by
  refine ⟨?_, ?_, ?_, ?_⟩
  · intro s e hse he h1
    have hne : ¬e ≤ s := by omega
    have h2 : s + (e - s) / 2 ≤ 2 ^ 32 := by omega
    refine ⟨?_, fun r => ?_⟩
    · simp [configure_noncacheable_pma, hne, pmaaddr1Writes,
        napotAddr_eq _ _ h1 h2]
    · rcases eq_or_ne r 0 with hr | hr <;>
        simp [configure_pma_hpm67, hse, hr, pmaaddr1Writes,
          napotAddr_eq _ _ h1 h2]
  · intro s e hle
    have hne : ¬s < e := by omega
    refine ⟨by simp [configure_noncacheable_pma, hle], fun r => ?_⟩
    rcases eq_or_ne r 0 with hr | hr <;>
      simp [configure_pma_hpm67, hne, hr, pmaaddr1Writes]
  · intro r hr
    have hb : r &&& 0xFFFFF000 ≤ 0xFFFFF000 := Nat.and_le_right
    have heq := napotAddr_eq (r &&& 0xFFFFF000) 0x1000 (by omega) (by omega)
    refine ⟨by simp [configure_rtt_noncacheable, hr, pmaaddr0Writes, heq],
      fun s e => ?_⟩
    rcases Nat.lt_or_ge s e with hse | hse
    · simp [configure_pma_hpm67, hr, hse, pmaaddr0Writes, heq]
    · simp [configure_pma_hpm67, hr, Nat.not_lt.mpr hse, pmaaddr0Writes, heq]
  · simp [configure_rtt_noncacheable]

/-- Witness for `c3_napot_encoding` at the spec's concrete example
(base `0x1000`, length `0x1000`) and an empty range. -/
theorem c3_napot_encoding_witness :
    pmaaddr1Writes (configure_noncacheable_pma 0x1000 0x2000) =
      [(0x1000 + (0x2000 - 0x1000) / 2 - 1) / 4] ∧
    configure_noncacheable_pma 0x1000 0x1000 = [] ∧
    pmaaddr0Writes (configure_rtt_noncacheable 0x2000) =
      [((0x2000 &&& 0xFFFFF000) + 0x1000 / 2 - 1) / 4] :=
  ⟨(c3_napot_encoding.1 0x1000 0x2000 (by omega) (by omega) (by omega)).1,
   (c3_napot_encoding.2.1 0x1000 0x1000 (by omega)).1,
   (c3_napot_encoding.2.2.1 0x2000 (by omega)).1⟩

/-- C8: `configure_pma_hpm67` always issues exactly one composite
`pmacfg0` write; when both entries are live it carries both fields.  With
the RTT symbol unresolved (address 0), `pmaaddr0` is never written and the
entry-0 field of the composite value is off (low byte 0), while the
general non-cacheable entry is still written when its range is
non-empty. -/
theorem c8_composite_write :
    (∀ r s e, (pmacfg0Writes (configure_pma_hpm67 r s e)).length = 1) ∧
    (∀ r s e, r ≠ 0 → s < e →
       pmacfg0Writes (configure_pma_hpm67 r s e) =
         [ENTRY_NAPOT_NC_BUF ||| ENTRY_NAPOT_NC_BUF_AMO <<< 8]) ∧
    (∀ s e,
       pmaaddr0Writes (configure_pma_hpm67 0 s e) = [] ∧
       (∀ v ∈ pmacfg0Writes (configure_pma_hpm67 0 s e), v &&& 0xFF = 0) ∧
       (s < e → pmaaddr1Writes (configure_pma_hpm67 0 s e) =
          [napotAddr s (e - s)])) := by
  refine ⟨?_, ?_, ?_⟩
  · intro r s e
    rcases eq_or_ne r 0 with hr | hr <;> rcases Nat.lt_or_ge s e with hse | hse
    · simp [configure_pma_hpm67, hr, hse, pmacfg0Writes]
    · simp [configure_pma_hpm67, hr, Nat.not_lt.mpr hse, pmacfg0Writes]
    · simp [configure_pma_hpm67, hr, hse, pmacfg0Writes]
    · simp [configure_pma_hpm67, hr, Nat.not_lt.mpr hse, pmacfg0Writes]
  · intro r s e hr hse
    simp [configure_pma_hpm67, hr, hse, pmacfg0Writes]
  · intro s e
    refine ⟨?_, ?_, fun hse => ?_⟩
    · rcases Nat.lt_or_ge s e with hse | hse
      · simp [configure_pma_hpm67, hse, pmaaddr0Writes]
      · simp [configure_pma_hpm67, Nat.not_lt.mpr hse, pmaaddr0Writes]
    · intro v hv
      rcases Nat.lt_or_ge s e with hse | hse
      · simp [configure_pma_hpm67, hse, pmacfg0Writes] at hv
        subst hv
        decide
      · simp [configure_pma_hpm67, Nat.not_lt.mpr hse, pmacfg0Writes] at hv
        subst hv
        decide
    · simp [configure_pma_hpm67, hse, pmaaddr1Writes]

/-- Witness for `c8_composite_write` with both entries live
(RTT at `0x4000`, range `0x1000..0x2000`) and with the RTT symbol
unresolved. -/
theorem c8_composite_write_witness :
    pmacfg0Writes (configure_pma_hpm67 0x4000 0x1000 0x2000) =
      [ENTRY_NAPOT_NC_BUF ||| ENTRY_NAPOT_NC_BUF_AMO <<< 8] ∧
    pmaaddr0Writes (configure_pma_hpm67 0 0x1000 0x2000) = [] ∧
    pmaaddr1Writes (configure_pma_hpm67 0 0x1000 0x2000) =
      [napotAddr 0x1000 0x1000] :=
  ⟨c8_composite_write.2.1 0x4000 0x1000 0x2000 (by omega) (by omega),
   (c8_composite_write.2.2 0x1000 0x2000).1,
   (c8_composite_write.2.2 0x1000 0x2000).2.2 (by omega)⟩

/-- C10: for every non-zero RTT symbol address, the erratum entry is
programmed with NAPOT value `((a &&& !0xFFF) + 0x1000/2 − 1) >> 2` — a
fixed 4KB window at the address rounded down to a 4KB boundary — in both
`configure_rtt_noncacheable` and `configure_pma_hpm67`; the value depends
only on the 4KB page of the address (the block's actual size and alignment
play no role). -/
theorem c10_rtt_window :
    (∀ a, a ≠ 0 →
       pmaaddr0Writes (configure_rtt_noncacheable a) =
         [((a &&& 0xFFFFF000) + 0x1000 / 2 - 1) / 4] ∧
       ∀ s e, pmaaddr0Writes (configure_pma_hpm67 a s e) =
         [((a &&& 0xFFFFF000) + 0x1000 / 2 - 1) / 4]) ∧
    (∀ a b, a ≠ 0 → b ≠ 0 → a &&& 0xFFFFF000 = b &&& 0xFFFFF000 →
       pmaaddr0Writes (configure_rtt_noncacheable a) =
         pmaaddr0Writes (configure_rtt_noncacheable b)) := by
  constructor
  · intro a ha
    have hb : a &&& 0xFFFFF000 ≤ 0xFFFFF000 := Nat.and_le_right
    have heq := napotAddr_eq (a &&& 0xFFFFF000) 0x1000 (by omega) (by omega)
    refine ⟨by simp [configure_rtt_noncacheable, ha, pmaaddr0Writes, heq],
      fun s e => ?_⟩
    rcases Nat.lt_or_ge s e with hse | hse
    · simp [configure_pma_hpm67, ha, hse, pmaaddr0Writes, heq]
    · simp [configure_pma_hpm67, ha, Nat.not_lt.mpr hse, pmaaddr0Writes, heq]
  · intro a b ha hb hab
    simp [configure_rtt_noncacheable, ha, hb, pmaaddr0Writes, hab]

/-- Witness for `c10_rtt_window` at two concrete addresses in the same
4KB page. -/
theorem c10_rtt_window_witness :
    pmaaddr0Writes (configure_rtt_noncacheable 0x80003A5C) =
      [((0x80003A5C &&& 0xFFFFF000) + 0x1000 / 2 - 1) / 4] ∧
    pmaaddr0Writes (configure_rtt_noncacheable 0x80003A5C) =
      pmaaddr0Writes (configure_rtt_noncacheable 0x80003004) :=
  ⟨(c10_rtt_window.1 0x80003A5C (by omega)).1,
   c10_rtt_window.2 0x80003A5C 0x80003004 (by omega) (by omega) (by decide)⟩

/-! ## Interrupt Controller Initializer (`setup_interrupts` in `src/lib.rs`) -/

/-- One observable register operation of `setup_interrupts`. -/
inductive PlicStep where
  | setThreshold (v : Nat)       -- `plic.set_threshold(v)`
  | claimWrite (id : Nat)        -- claim register write with interrupt id
  | intenWrite (i v : Nat)       -- `plic.targetint(0).inten(i).write(v)`
  | enableCycleCounter           -- `mcounteren::set_cy()`
  | mtvecWrite (addr : Nat)      -- `mtvec::write` with the vector table base
  | plicFeatureVectored          -- `plic.feature().modify(set_vectored(true))`
  | mmiscCtlVecPlic              -- `mmisc_ctl().modify(set_vec_plic(true))`
  | setMstatusMie                -- `mstatus::set_mie()`
  | setMstatusSie                -- `mstatus::set_sie()`
  | setMieMext                   -- `mie::set_mext()`
  deriving DecidableEq

/-- The loop `for i in 0..n { claim().modify(set_interrupt_id(i)) }`. -/
def claimClearLoop : Nat → List PlicStep
  | 0 => []
  | n + 1 => claimClearLoop n ++ [PlicStep.claimWrite n]

/-- The loop `for i in 0..n { targetint(0).inten(i).write(0) }`. -/
def intenClearLoop : Nat → List PlicStep
  | 0 => []
  | n + 1 => intenClearLoop n ++ [PlicStep.intenWrite n 0]

/-- `setup_interrupts`: the ordered trace of register operations;
`vectorAddr` is the address of the external `__INTERRUPTS` vector table. -/
def setup_interrupts (vectorAddr : Nat) : List PlicStep :=
  [PlicStep.setThreshold 0] ++
  claimClearLoop 128 ++
  intenClearLoop 4 ++
  [PlicStep.enableCycleCounter,
   PlicStep.mtvecWrite vectorAddr,
   PlicStep.plicFeatureVectored,
   PlicStep.mmiscCtlVecPlic,
   PlicStep.setMstatusMie,
   PlicStep.setMstatusSie,
   PlicStep.setMieMext]

theorem claimClearLoop_eq (n : Nat) :
    claimClearLoop n = (List.range n).map PlicStep.claimWrite := by
  induction n with
  | zero => rfl
  | succ k ih => simp [claimClearLoop, ih, List.range_succ]

theorem intenClearLoop_eq (n : Nat) :
    intenClearLoop n = (List.range n).map fun i => PlicStep.intenWrite i 0 := by
  induction n with
  | zero => rfl
  | succ k ih => simp [intenClearLoop, ih, List.range_succ]

/-- C6: `setup_interrupts` performs, in this order: threshold 0; exactly
128 claim-state clears (ids 0..127 in order); exactly 4 interrupt-enable
word clears; cycle-counter enable; the mtvec write with the vector table
address; controller vectored mode and the core vectoring control bit; and
only then the global interrupt enables (machine, supervisor) and the
machine external-interrupt class. -/
theorem c6_setup_interrupts_order :
    ∀ vectorAddr : Nat,
      setup_interrupts vectorAddr =
        [PlicStep.setThreshold 0] ++
        ((List.range 128).map PlicStep.claimWrite) ++
        ((List.range 4).map fun i => PlicStep.intenWrite i 0) ++
        [PlicStep.enableCycleCounter,
         PlicStep.mtvecWrite vectorAddr,
         PlicStep.plicFeatureVectored,
         PlicStep.mmiscCtlVecPlic,
         PlicStep.setMstatusMie,
         PlicStep.setMstatusSie,
         PlicStep.setMieMext] ∧
      ((List.range 128).map PlicStep.claimWrite).length = 128 ∧
      ((List.range 4).map fun i => PlicStep.intenWrite i 0).length = 4 := by
  intro vectorAddr
  refine ⟨?_, by simp, by simp⟩
  simp [setup_interrupts, claimClearLoop_eq, intenClearLoop_eq]

/-- C7: table contents at the cited codes. -/
theorem c7_dispatch_tables :
    __HPM_EXCEPTIONS[2]? = some (some .illegalInstruction) ∧
    __HPM_EXCEPTIONS[10]? = some none ∧
    __HPM_EXCEPTIONS[14]? = some none ∧
    __HPM_CORE_INTERRUPTS[7]? = some (some .machineTimer) ∧
    __HPM_CORE_INTERRUPTS[11]? = some (some .machineExternal) ∧
    (∀ c ∈ [0, 2, 4, 6, 8, 10, 12, 13], __HPM_CORE_INTERRUPTS[c]? = some none) := by
  decide

/-- Witness for `c7_dispatch_tables` at the concrete reserved code 10. -/
theorem c7_dispatch_tables_witness : __HPM_CORE_INTERRUPTS[10]? = some none :=
  c7_dispatch_tables.2.2.2.2.2 10 (by decide)

end HpmRiscvRt
